import Mathlib

/-!
Verification development for the PISM inverse-problem driver
`examples/inverse/vel2tauc.py` and the inverse-SSA engine it drives.

The driver script is embedded shallowly: grid cells are pairs of natural
numbers, scalar fields are functions from cells to rationals, 2d velocity
fields are functions from cells to pairs of rationals, and the driver's
main control flow (from solver construction up to the `solveInverse` call)
is embedded as a trace of actions computed from the command-line options
and the contents of the input files.

The inversion engine itself (`PISM.invert_ssa`, `siple`) is not part of
the source tree here; where a claim is decided by engine behaviour, the
engine component is modelled from the specification and the corresponding
definition carries a doc comment starting `Modelled from the spec:`.
-/

namespace Vel2Tauc

/-- A grid cell, indexed as `(i, j)` exactly as `grid.points()` iterates. -/
abbrev Cell : Type := Nat × Nat

/-- A scalar field over the grid (one rational per cell). -/
abbrev ScalarField : Type := Cell → ℚ

/-- A two-component (velocity) field over the grid. -/
abbrev VelField : Type := Cell → ℚ × ℚ

/-- Auxiliary: `ps` is a prefix of the character list `ss`. -/
def charPrefix : List Char → List Char → Bool
  | [], _ => true
  | _ :: _, [] => false
  | p :: ps, s :: ss => p == s && charPrefix ps ss

/-- Python's `s.startswith(pre)`, over the underlying character lists. -/
def strStartsWith (s pre : String) : Bool := charPrefix pre.data s.data

/-! ## The zeta fixed mask (`Vel2Tauc._initSSACoefficients`, lines 141-155)

The mask is allocated, set to 1 everywhere, and then set to 0 at every
cell with grounded ice:

    zeta_fixed_mask.set(1);
    ...
    for (i,j) in self.grid.points():
      if mq.grounded_ice(i,j):
        zeta_fixed_mask[i,j] = 0;
-/

/-- The `zeta_fixed_mask` produced by `Vel2Tauc._initSSACoefficients`:
starts at 1 everywhere and is overwritten with 0 at grounded-ice cells. -/
def initZetaFixedMask (grounded_ice : Cell → Bool) : Cell → ℕ :=
  fun c => if grounded_ice c then 0 else 1

/-- Variables added to `modeldata.vecs` by `_initSSACoefficients`
(lines 99-155).  If the inverse data file lacks `misfit_element_mask`,
the method raises (line 139) before `zeta_fixed_mask` is created. -/
def initSSACoefficientsVars (is_regional ssa_dirichlet_bc has_misfit_element_mask : Bool) :
    Except Unit (List String) :=
  let base : List String :=
    (if is_regional then ["no_model_mask", "usurfstore"] else []) ++
    (if ssa_dirichlet_bc then ["vel_ssa_bc", "bc_mask"] else []) ++
    ["vel_misfit_weight"]
  if has_misfit_element_mask then
    Except.ok (base ++ ["misfit_element_mask", "zeta_fixed_mask"])
  else
    Except.error ()

/-- `Vel2Tauc.setup` (lines 66-67): the fixed-locations mask is handed to
the SSA solver exactly when the vecs hold `zeta_fixed_mask` and the
`-use_zeta_fixed_mask` flag was given. -/
def setupFixedLocations (has_zeta_fixed_mask using_zeta_fixed_mask : Bool)
    (mask : Cell → ℕ) : Option (Cell → ℕ) :=
  if has_zeta_fixed_mask && using_zeta_fixed_mask then some mask else none

/-! ## Zeroing the adjoint-test direction (driver main, lines 474-479)

    if vel2tauc.using_zeta_fixed_mask:
      zeta_fixed_mask = vecs.zeta_fixed_mask
      ...
      for (i,j) in grid.points():
        if zeta_fixed_mask[i,j] != 0:
          d[i,j] = 0;
-/

/-- The perturbation direction `d` after the driver's fixed-mask zeroing
loop in the adjoint-test branch. -/
def zeroFixedDirection (using_zeta_fixed_mask : Bool) (zeta_fixed_mask : Cell → ℕ)
    (d : ScalarField) : ScalarField :=
  if using_zeta_fixed_mask then
    fun c => if zeta_fixed_mask c ≠ 0 then 0 else d c
  else
    d

/-! ## The parameter transform -/

/-- `config.set("inv_ssa_tauc_min",5e2)` (line 394). -/
def tauc_min : ℚ := 500

/-- `config.set("inv_ssa_tauc_max",5e7)` (line 395). -/
def tauc_max : ℚ := 50000000

/-- `config.set("tauc_param_tauc_scale",stress_scale)` with
`stress_scale = 50000` Pa (lines 400-403). -/
def tauc_scale : ℚ := 50000

/-- Modelled from the spec: the Parameter Transform's `to_parameter`
direction (`convertFromTauc`).  The transform implementation lives in the
inverse-SSA library, outside this source tree; the driver selects the
`ident` transform (line 385) with scale `tauc_scale`, so `to_parameter`
divides the physical yield stress by the configured scale. -/
def convertFromTauc (tauc : ℚ) : ℚ := tauc / tauc_scale

/-- Modelled from the spec: the Parameter Transform's `to_physical`
direction (`convertToTauc`), missing from the source tree.  It rescales
the optimization variable and enforces the configured bounds
`[tauc_min, tauc_max]` (spec section 4.1: truncation/bounding semantics). -/
def convertToTauc (zeta : ℚ) : ℚ := min (max (zeta * tauc_scale) tauc_min) tauc_max

/-! ## The inversion engine, modelled from the spec

The engine (`PISM.invert_ssa.InvSSASolver` and the underlying `siple`
iteration drivers) is not in this source tree; the definitions below are
modelled from the specification sections 4.4, 4.5 and 7.
-/

/-- Modelled from the spec (section 3): the enumerated terminal outcome of
a solve, missing from this source tree. -/
inductive ConvergenceReason where
  | success
  | maxIterationsExceeded
  | lineSearchFailure
  | divergedResidual
  | forwardSolveFailure
  | userCancelled
  deriving DecidableEq, Repr

/-- Modelled from the spec (section 7): the named reason string a caller
retrieves after a solve; every terminal outcome has a nonempty name. -/
def reasonString : ConvergenceReason → String
  | ConvergenceReason.success => "success"
  | ConvergenceReason.maxIterationsExceeded => "maximum iterations exceeded"
  | ConvergenceReason.lineSearchFailure => "line search failure"
  | ConvergenceReason.divergedResidual => "diverged residual"
  | ConvergenceReason.forwardSolveFailure => "unrecoverable forward solve failure"
  | ConvergenceReason.userCancelled => "user cancelled"

/-- Modelled from the spec (section 4.5): the outcome of one outer
iteration of the Iteration Controller, as seen by the convergence test. -/
inductive StepEvent where
  | converged
  | lineSearchFail
  | evaluatorDiverged
  | evaluatorFail
  | cancelled
  | accepted
  deriving DecidableEq, Repr

/-- Modelled from the spec (section 4.5): the Iteration Controller loop,
missing from this source tree.  `events k` is the outcome of outer
iteration `k`; the controller runs until an iteration converges, fails,
is cancelled, or the configured maximum iteration count is exhausted. -/
def controllerRun (events : ℕ → StepEvent) : ℕ → ConvergenceReason
  | 0 => ConvergenceReason.maxIterationsExceeded
  | n + 1 =>
    match events 0 with
    | StepEvent.converged => ConvergenceReason.success
    | StepEvent.lineSearchFail => ConvergenceReason.lineSearchFailure
    | StepEvent.evaluatorDiverged => ConvergenceReason.divergedResidual
    | StepEvent.evaluatorFail => ConvergenceReason.forwardSolveFailure
    | StepEvent.cancelled => ConvergenceReason.userCancelled
    | StepEvent.accepted => controllerRun (fun k => events (k + 1)) n

/-- The result record of `solveInverse`: a success flag plus the stored
`ConvergenceReason`. -/
structure SolveResult where
  success : Bool
  reason : ConvergenceReason
  deriving DecidableEq, Repr

/-- Modelled from the spec (sections 4.5 and 7): `solveInverse` runs the
Iteration Controller to a terminal state and returns `success = true`
exactly for the `success` outcome; every terminal failure is returned as
a stored `ConvergenceReason`, never as an uncaught exception (the model
is a total function). -/
def solveInverse (events : ℕ → StepEvent) (max_iterations : ℕ) : SolveResult :=
  let r := controllerRun events max_iterations
  { success := r = ConvergenceReason.success, reason := r }

/-- Modelled from the spec (section 7): `inverseConvergedReason` exposes
the stored terminal reason as a named string. -/
def inverseConvergedReason (res : SolveResult) : String := reasonString res.reason

/-! ### The line-search engine, modelled from the spec (section 4.4) -/

/-- Result of a line search: either an accepted step length, or
`LineSearchFailure`, in both cases with the number of trial evaluations
performed. -/
inductive LSResult where
  | stepAccepted (alpha : ℚ) (trials : ℕ)
  | lineSearchFailure (trials : ℕ)
  deriving DecidableEq, Repr

/-- Modelled from the spec (section 4.4): the trial loop of the
line-search engine, missing from this source tree.  `phi0` is the
objective at the current iterate, `phi` the objective along the search
direction, `trialSteps k` the step length tried at trial `k`; the loop
performs at most `fuel` further trials and signals `lineSearchFailure`
when the trial budget is exhausted without finding a decreasing step. -/
def lineSearchAux (phi0 : ℚ) (phi : ℚ → ℚ) (trialSteps : ℕ → ℚ) :
    ℕ → ℕ → LSResult
  | 0, used => LSResult.lineSearchFailure used
  | fuel + 1, used =>
    let alpha := trialSteps used
    if phi alpha < phi0 then LSResult.stepAccepted alpha (used + 1)
    else lineSearchAux phi0 phi trialSteps fuel (used + 1)

/-- Modelled from the spec (section 4.4): the line-search engine entry
point, with a configured maximum number of trial evaluations. -/
def lineSearch (phi : ℚ → ℚ) (trialSteps : ℕ → ℚ) (max_trials : ℕ) : LSResult :=
  lineSearchAux (phi 0) phi trialSteps max_trials 0

/-- The number of trial evaluations a line-search result records. -/
def LSResult.trialCount : LSResult → ℕ
  | LSResult.stepAccepted _ t => t
  | LSResult.lineSearchFailure t => t

/-- Modelled from the spec (section 4.4): how a line-search failure is
reported to the Iteration Controller, which aborts the solve with
`ConvergenceReason = lineSearchFailure`. -/
def reportLineSearch : LSResult → Option ConvergenceReason
  | LSResult.lineSearchFailure _ => some ConvergenceReason.lineSearchFailure
  | LSResult.stepAccepted _ _ => none

/-! ### Fixed-mask enforcement across iterations, modelled from the spec
(sections 3, 4.4 and 4.5): every update is applied after zeroing the
disallowed components of the proposed search direction. -/

/-- Modelled from the spec: one iterate update of the Iteration
Controller, missing from this source tree; the step is applied only to
the components the FixedMask allows. -/
def applyMaskedUpdate (mask : Cell → ℕ) (zeta : ScalarField) (d : ScalarField)
    (alpha : ℚ) : ScalarField :=
  fun c => zeta c + alpha * (if mask c ≠ 0 then 0 else d c)

/-- Modelled from the spec: the sequence of iterates a solve produces
from an initial `zeta0` given per-iteration search directions `dirs` and
accepted step lengths `steps`, each applied with FixedMask enforcement. -/
def solveIterates (mask : Cell → ℕ) (dirs : ℕ → ScalarField) (steps : ℕ → ℚ)
    (zeta0 : ScalarField) : ℕ → ScalarField
  | 0 => zeta0
  | n + 1 => applyMaskedUpdate mask (solveIterates mask dirs steps zeta0 n) (dirs n) (steps n)

/-! ## The driver main flow (lines 411-570)

The main block after option parsing and configuration is embedded as a
trace of actions, computed from the option flags and from which variables
the input, inverse-data and output files contain.  Each segment below is
written in continuation style: an `exit(...)` in the script truncates the
rest of the run, so the exiting branches drop the continuation `rest`.
-/

/-- The name under which the optimization variable is created and written:
`zeta.create(grid, "zeta_inv", ...)` (line 454). -/
def zetaVariableName : String := "zeta_inv"

/-- Modelled from the spec (section 6): the checkpoint variable the
`ZetaSaver` update listener persists the latest ParameterField under; the
listener implementation lives in `PISM.invert_ssa`, outside this source
tree.  It writes the driver's zeta vector, which carries the name
`zeta_inv` (line 454), to the output file on every iterate update. -/
def zetaSaverVariable : String := zetaVariableName

/-- `PISM.secpera`, the seconds-per-year constant used by the unit
conversion at line 568 (value as in PISM: 3.15569259747e7). -/
def secpera : ℚ := 31556925.9747

/-- The command-line flags of the driver main block that steer the
control flow embedded here (lines 336-379). -/
structure DriverOpts where
  use_tauc_prior : Bool
  do_restart : Bool
  test_adjoint : Bool
  inv_method : String
  using_zeta_fixed_mask : Bool
  do_plotting : Bool
  monitor_adjoint : Bool
  do_pause : Bool
  deriving DecidableEq, Repr

/-- Which variables the relevant files contain (queried through
`PISM.util.fileHasVariable` in the main block). -/
structure DriverFiles where
  inputHasTauc : Bool
  invDataHasTaucTrue : Bool
  outputHasZetaInv : Bool
  invDataHasUSSAObserved : Bool
  invDataHasUSurfaceObserved : Bool
  deriving DecidableEq, Repr

/-- The observable actions of the driver main flow, in source order. -/
inductive Action where
  | setup
  | regridTaucPriorFromInvData
  | printMissingTauc
  | regridTaucFromInput
  | loadTaucTrue
  | printMissingZetaInv
  | regridZetaFromOutput (var : String)
  | convertFromTaucPrior
  | printAdjointIncompatible
  | zeroDOnFixedMask
  | callTestTStar (domainIP rangeIP : ℚ)
  | reportIPs (domainIP rangeIP : ℚ)
  | exitCode (code : ℕ)
  | regridVelSSAObserved
  | printMissingObserved
  | computeSIASurfaceVelocities
  | subtractSIAFromSurface
  | writeZeta
  | addIterationListener (name : String)
  | addXUpdateListener (var : String)
  | divideRmsBySecpera
  | callSolveInverse
  deriving DecidableEq, Repr

/-- Determining `tauc_prior` (lines 428-439): from the inverse data file
when `-use_tauc_prior` is set; otherwise from `tauc` in the input file,
exiting with an explanatory message when that variable is absent. -/
def taucPriorTrace (o : DriverOpts) (f : DriverFiles) (rest : List Action) : List Action :=
  if o.use_tauc_prior then Action.regridTaucPriorFromInvData :: rest
  else if ¬ f.inputHasTauc then [Action.printMissingTauc, Action.exitCode 1]
  else Action.regridTaucFromInput :: rest

/-- Optional load of `tauc_true` from the inverse data file (lines 444-448). -/
def taucTrueTrace (f : DriverFiles) (rest : List Action) : List Action :=
  if f.invDataHasTaucTrue then Action.loadTaucTrue :: rest else rest

/-- Determining the initial zeta (lines 453-463): on restart, verify the
output file holds `zeta_inv` (exit otherwise) and regrid zeta from it;
otherwise convert `tauc_prior` through the parameter transform. -/
def zetaInitTrace (o : DriverOpts) (f : DriverFiles) (rest : List Action) : List Action :=
  if o.do_restart then
    if ¬ f.outputHasZetaInv then [Action.printMissingZetaInv, Action.exitCode 1]
    else Action.regridZetaFromOutput zetaVariableName :: rest
  else Action.convertFromTaucPrior :: rest

/-- The `-inv_test_adjoint` branch (lines 466-484): incompatible with the
Tikhonov methods (message and `exit(1)`); otherwise the direction is
zeroed on the fixed mask when in use, `testTStar` is called, its two
inner products are reported, and the program exits with status 0. -/
def adjointTrace (o : DriverOpts) (domainIP rangeIP : ℚ) (rest : List Action) : List Action :=
  if o.test_adjoint then
    if strStartsWith o.inv_method "tikhonov" then
      [Action.printAdjointIncompatible, Action.exitCode 1]
    else
      (if o.using_zeta_fixed_mask then [Action.zeroDOnFixedMask] else []) ++
      [Action.callTestTStar domainIP rangeIP,
       Action.reportIPs domainIP rangeIP,
       Action.exitCode 0]
  else rest

/-- Establishing `vel_ssa_observed` (lines 486-506): read directly when
the inverse data file has `u_ssa_observed`; otherwise derive it from
`u_surface_observed` minus SIA-computed surface velocities, exiting when
neither variable is present. -/
def obsTrace (f : DriverFiles) (rest : List Action) : List Action :=
  if f.invDataHasUSSAObserved then Action.regridVelSSAObserved :: rest
  else if ¬ f.invDataHasUSurfaceObserved then
    [Action.printMissingObserved, Action.exitCode 1]
  else
    Action.computeSIASurfaceVelocities :: Action.subtractSIAFromSurface :: rest

/-- Listener registration (lines 536-553): plotting, adjoint monitoring,
pausing and progress listeners as flagged, then the `ZetaSaver` iterate
update listener. -/
def listenerTrace (o : DriverOpts) (rest : List Action) : List Action :=
  (if o.do_plotting then [Action.addIterationListener "plot"] else []) ++
  (if o.monitor_adjoint then [Action.addIterationListener "monitor_adjoint"] else []) ++
  (if o.do_pause then [Action.addIterationListener "pause"] else []) ++
  [Action.addIterationListener
      (if strStartsWith o.inv_method "tikhonov" then "printTikhonovProgress"
       else "printRMSMisfit"),
   Action.addXUpdateListener zetaSaverVariable] ++ rest

/-- The driver main flow from `vel2tauc.setup()` (line 412) through the
`solver.solveInverse` call (line 570), as a trace of actions.
`domainIP` and `rangeIP` are the two inner products `testTStar` returns
in the adjoint-test branch. -/
def mainTrace (o : DriverOpts) (f : DriverFiles) (domainIP rangeIP : ℚ) : List Action :=
  Action.setup ::
    taucPriorTrace o f
      (taucTrueTrace f
        (zetaInitTrace o f
          (adjointTrace o domainIP rangeIP
            (obsTrace f
              (Action.writeZeta ::
                listenerTrace o
                  [Action.divideRmsBySecpera, Action.callSolveInverse])))))

/-- Actions that contain a forward PDE solve: the adjoint self-test (it
evaluates the forward map and its adjoint), the SIA surface-velocity
computation, and the inverse solve itself. -/
def isForwardSolveAction : Action → Bool
  | Action.callTestTStar _ _ => true
  | Action.computeSIASurfaceVelocities => true
  | Action.callSolveInverse => true
  | _ => false

/-! ## The RMS-error unit swap (lines 362, 406, 568) -/

/-- The two copies of the RMS-error target the main block holds: the
value stored in the configuration database and the local Python
variable. -/
structure RmsState where
  configVal : ℚ
  localVal : ℚ
  deriving DecidableEq, Repr

/-- State after `config.set("inv_ssa_rms_error", rms_error)` (line 406):
the configuration receives the unconverted command-line value. -/
def rmsAfterConfigSet (rms_error : ℚ) : RmsState :=
  { configVal := rms_error, localVal := rms_error }

/-- State after `rms_error /= PISM.secpera` (line 568): only the local
variable is divided; the configuration entry is not updated. -/
def rmsBeforeSolve (s : RmsState) : RmsState :=
  { s with localVal := s.localVal / secpera }

/-! ## Deriving the observed SSA velocities (lines 486-506), value level -/

/-- The observed SSA velocity field the main block establishes: read from
`u_ssa_observed` when present; else `u_surface_observed` minus the
SIA-computed surface velocities (`copy_from` then `add(-1, vel_sia)`,
lines 504-505); else an error before any solve. -/
def deriveVelSSAObserved (hasUSSAObserved hasUSurfaceObserved : Bool)
    (u_ssa_file u_surface_file u_sia : VelField) : Except String VelField :=
  if hasUSSAObserved then Except.ok u_ssa_file
  else if ¬ hasUSurfaceObserved then
    Except.error "Neither u/v_ssa_observed nor u/v_surface_observed is available. At least one must be specified."
  else
    Except.ok fun c =>
      ((u_surface_file c).1 + (-1) * (u_sia c).1,
       (u_surface_file c).2 + (-1) * (u_sia c).2)

/-! ## Helper lemmas about the driver trace -/

theorem taucPriorTrace_prior (o : DriverOpts) (f : DriverFiles) (rest : List Action)
    (h : o.use_tauc_prior = true) :
    taucPriorTrace o f rest = Action.regridTaucPriorFromInvData :: rest := by
  simp [taucPriorTrace, h]

theorem taucPriorTrace_input (o : DriverOpts) (f : DriverFiles) (rest : List Action)
    (h : o.use_tauc_prior = false) (ht : f.inputHasTauc = true) :
    taucPriorTrace o f rest = Action.regridTaucFromInput :: rest := by
  simp [taucPriorTrace, h, ht]

theorem taucPriorTrace_suffix (o : DriverOpts) (f : DriverFiles) (rest : List Action)
    (h : o.use_tauc_prior = true ∨ f.inputHasTauc = true) :
    List.IsSuffix rest (taucPriorTrace o f rest) := by
  cases hu : o.use_tauc_prior with
  | true => rw [taucPriorTrace_prior o f rest hu]; exact List.suffix_cons _ _
  | false =>
    rcases h with h | h
    · rw [hu] at h; cases h
    · rw [taucPriorTrace_input o f rest hu h]; exact List.suffix_cons _ _

theorem mem_taucPriorTrace {o : DriverOpts} {f : DriverFiles} {rest : List Action}
    {a : Action} (ha : a ∈ taucPriorTrace o f rest) :
    a ∈ rest ∨ a ∈ [Action.regridTaucPriorFromInvData, Action.printMissingTauc,
                    Action.exitCode 1, Action.regridTaucFromInput] := by
  unfold taucPriorTrace at ha
  split at ha
  · rw [List.mem_cons] at ha; simp; tauto
  · split at ha
    · simp at ha; simp; tauto
    · rw [List.mem_cons] at ha; simp; tauto

theorem taucTrueTrace_suffix (f : DriverFiles) (rest : List Action) :
    List.IsSuffix rest (taucTrueTrace f rest) := by
  unfold taucTrueTrace
  split
  · exact List.suffix_cons _ _
  · exact List.suffix_rfl

theorem mem_taucTrueTrace {f : DriverFiles} {rest : List Action} {a : Action}
    (ha : a ∈ taucTrueTrace f rest) :
    a ∈ rest ∨ a = Action.loadTaucTrue := by
  unfold taucTrueTrace at ha
  split at ha
  · rw [List.mem_cons] at ha; tauto
  · tauto

theorem zetaInitTrace_restart (o : DriverOpts) (f : DriverFiles) (rest : List Action)
    (h : o.do_restart = true) (hz : f.outputHasZetaInv = true) :
    zetaInitTrace o f rest = Action.regridZetaFromOutput zetaVariableName :: rest := by
  simp [zetaInitTrace, h, hz]

theorem zetaInitTrace_restart_missing (o : DriverOpts) (f : DriverFiles) (rest : List Action)
    (h : o.do_restart = true) (hz : f.outputHasZetaInv = false) :
    zetaInitTrace o f rest = [Action.printMissingZetaInv, Action.exitCode 1] := by
  simp [zetaInitTrace, h, hz]

theorem zetaInitTrace_fresh (o : DriverOpts) (f : DriverFiles) (rest : List Action)
    (h : o.do_restart = false) :
    zetaInitTrace o f rest = Action.convertFromTaucPrior :: rest := by
  simp [zetaInitTrace, h]

theorem zetaInitTrace_suffix (o : DriverOpts) (f : DriverFiles) (rest : List Action)
    (h : o.do_restart = false ∨ f.outputHasZetaInv = true) :
    List.IsSuffix rest (zetaInitTrace o f rest) := by
  cases hr : o.do_restart with
  | false => rw [zetaInitTrace_fresh o f rest hr]; exact List.suffix_cons _ _
  | true =>
    rcases h with h | h
    · rw [hr] at h; cases h
    · rw [zetaInitTrace_restart o f rest hr h]; exact List.suffix_cons _ _

theorem mem_zetaInitTrace {o : DriverOpts} {f : DriverFiles} {rest : List Action}
    {a : Action} (ha : a ∈ zetaInitTrace o f rest) :
    a ∈ rest ∨ a ∈ [Action.printMissingZetaInv, Action.exitCode 1,
                    Action.regridZetaFromOutput zetaVariableName,
                    Action.convertFromTaucPrior] := by
  unfold zetaInitTrace at ha
  split at ha
  · split at ha
    · simp at ha; simp; tauto
    · rw [List.mem_cons] at ha; simp; tauto
  · rw [List.mem_cons] at ha; simp; tauto

theorem adjointTrace_off (o : DriverOpts) (dip rip : ℚ) (rest : List Action)
    (h : o.test_adjoint = false) :
    adjointTrace o dip rip rest = rest := by
  simp [adjointTrace, h]

theorem adjointTrace_tikhonov (o : DriverOpts) (dip rip : ℚ) (rest : List Action)
    (hta : o.test_adjoint = true) (htik : strStartsWith o.inv_method "tikhonov" = true) :
    adjointTrace o dip rip rest = [Action.printAdjointIncompatible, Action.exitCode 1] := by
  simp [adjointTrace, hta, htik]

theorem adjointTrace_run (o : DriverOpts) (dip rip : ℚ) (rest : List Action)
    (hta : o.test_adjoint = true) (htik : strStartsWith o.inv_method "tikhonov" = false) :
    adjointTrace o dip rip rest =
      (if o.using_zeta_fixed_mask then [Action.zeroDOnFixedMask] else []) ++
      [Action.callTestTStar dip rip, Action.reportIPs dip rip, Action.exitCode 0] := by
  simp [adjointTrace, hta, htik]

theorem mem_adjointTrace {o : DriverOpts} {dip rip : ℚ} {rest : List Action}
    {a : Action} (ha : a ∈ adjointTrace o dip rip rest) :
    a ∈ rest ∨ a ∈ [Action.printAdjointIncompatible, Action.exitCode 1,
                    Action.zeroDOnFixedMask, Action.callTestTStar dip rip,
                    Action.reportIPs dip rip, Action.exitCode 0] := by
  unfold adjointTrace at ha
  split at ha
  · split at ha
    · simp at ha; simp; tauto
    · split at ha <;> · simp at ha; simp; tauto
  · tauto

theorem obsTrace_direct (f : DriverFiles) (rest : List Action)
    (h : f.invDataHasUSSAObserved = true) :
    obsTrace f rest = Action.regridVelSSAObserved :: rest := by
  simp [obsTrace, h]

theorem obsTrace_surface (f : DriverFiles) (rest : List Action)
    (h : f.invDataHasUSSAObserved = false) (hs : f.invDataHasUSurfaceObserved = true) :
    obsTrace f rest =
      Action.computeSIASurfaceVelocities :: Action.subtractSIAFromSurface :: rest := by
  simp [obsTrace, h, hs]

theorem obsTrace_missing (f : DriverFiles) (rest : List Action)
    (h : f.invDataHasUSSAObserved = false) (hs : f.invDataHasUSurfaceObserved = false) :
    obsTrace f rest = [Action.printMissingObserved, Action.exitCode 1] := by
  simp [obsTrace, h, hs]

theorem obsTrace_suffix (f : DriverFiles) (rest : List Action)
    (h : f.invDataHasUSSAObserved = true ∨ f.invDataHasUSurfaceObserved = true) :
    List.IsSuffix rest (obsTrace f rest) := by
  cases hd : f.invDataHasUSSAObserved with
  | true => rw [obsTrace_direct f rest hd]; exact List.suffix_cons _ _
  | false =>
    rcases h with h | h
    · rw [hd] at h; cases h
    · rw [obsTrace_surface f rest hd h]
      exact (List.suffix_cons _ _).trans (List.suffix_cons _ _)

theorem mem_obsTrace {f : DriverFiles} {rest : List Action} {a : Action}
    (ha : a ∈ obsTrace f rest) :
    a ∈ rest ∨ a ∈ [Action.regridVelSSAObserved, Action.printMissingObserved,
                    Action.exitCode 1, Action.computeSIASurfaceVelocities,
                    Action.subtractSIAFromSurface] := by
  unfold obsTrace at ha
  split at ha
  · rw [List.mem_cons] at ha; simp; tauto
  · split at ha
    · simp at ha; simp; tauto
    · rw [List.mem_cons, List.mem_cons] at ha; simp; tauto

theorem listenerTrace_suffix (o : DriverOpts) (rest : List Action) :
    List.IsSuffix rest (listenerTrace o rest) := by
  unfold listenerTrace
  simp only [List.append_assoc]
  have h1 : List.IsSuffix rest
      ([Action.addIterationListener
          (if strStartsWith o.inv_method "tikhonov" then "printTikhonovProgress"
           else "printRMSMisfit"),
        Action.addXUpdateListener zetaSaverVariable] ++ rest) :=
    List.suffix_append _ _
  exact ((h1.trans (List.suffix_append _ _)).trans (List.suffix_append _ _)).trans
    (List.suffix_append _ _)

theorem mem_listenerTrace {o : DriverOpts} {rest : List Action} {a : Action}
    (ha : a ∈ listenerTrace o rest) :
    a ∈ rest ∨ (∃ s, a = Action.addIterationListener s) ∨
    a = Action.addXUpdateListener zetaSaverVariable := by
  unfold listenerTrace at ha
  simp at ha
  aesop

theorem zetaSaver_mem_listenerTrace (o : DriverOpts) (rest : List Action) :
    Action.addXUpdateListener zetaSaverVariable ∈ listenerTrace o rest := by
  simp [listenerTrace]

/-- Auxiliary for C4: under an ascent direction (no trial step decreases
the objective), the trial loop runs through its whole budget and fails,
recording exactly the budgeted number of trial evaluations. -/
theorem lineSearchAux_ascent (phi : ℚ → ℚ) (trialSteps : ℕ → ℚ)
    (h : ∀ alpha, phi 0 ≤ phi alpha) (fuel : ℕ) :
    ∀ used, lineSearchAux (phi 0) phi trialSteps fuel used =
      LSResult.lineSearchFailure (used + fuel) := by
  induction fuel with
  | zero => intro used; simp [lineSearchAux]
  | succ n ih =>
    intro used
    simp only [lineSearchAux]
    rw [if_neg (not_lt.mpr (h (trialSteps used))), ih (used + 1)]
    congr 1
    omega

/-! ## The claims -/

/-- Claim C1: for every FixedMask configuration and every run of the
solve, the parameter-field values at cells the mask marks fixed are
exactly their initial values after any number of iterations; and in the
driver's adjoint test the perturbation direction `d` is zeroed at every
cell where `zeta_fixed_mask` is nonzero before the test runs. -/
theorem C1_fixed_cells_unchanged (mask : Cell → ℕ) (dirs : ℕ → ScalarField)
    (steps : ℕ → ℚ) (zeta0 : ScalarField) (d : ScalarField) (c : Cell) (n : ℕ)
    (hc : mask c ≠ 0) :
    solveIterates mask dirs steps zeta0 n c = zeta0 c ∧
    zeroFixedDirection true mask d c = 0 := by
  constructor
  · induction n with
    | zero => rfl
    | succ n ih => simp [solveIterates, applyMaskedUpdate, hc, ih]
  · simp [zeroFixedDirection, hc]

/-- Witness for C1 at a concrete mask, direction sequence and cell. -/
theorem C1_witness :
    ((fun _ : Cell => 1) : Cell → ℕ) (0, 0) ≠ 0 ∧
    (solveIterates (fun _ => 1) (fun _ _ => 5) (fun _ => 1) (fun _ => 3) 2 (0, 0) = 3 ∧
     zeroFixedDirection true (fun _ => 1) (fun _ => 7) (0, 0) = 0) :=
  ⟨by decide,
   C1_fixed_cells_unchanged (fun _ => 1) (fun _ _ => 5) (fun _ => 1) (fun _ => 3)
     (fun _ => 7) (0, 0) 2 (by decide)⟩

/-- Claim C2: for every field value within the configured bounds
`[tauc_min, tauc_max]`, converting to the optimization variable and back
(`convertFromTauc` then `convertToTauc`) returns the value (here exactly,
hence within any numerical tolerance). -/
theorem C2_transform_round_trip (x : ℚ) (hlo : tauc_min ≤ x) (hhi : x ≤ tauc_max) :
    convertToTauc (convertFromTauc x) = x := by
  unfold convertToTauc convertFromTauc
  rw [div_mul_cancel₀ x (show tauc_scale ≠ 0 by norm_num [tauc_scale])]
  rw [max_eq_left hlo, min_eq_left hhi]

/-- Witness for C2 at `x = 1000` Pa. -/
theorem C2_witness :
    tauc_min ≤ (1000 : ℚ) ∧ (1000 : ℚ) ≤ tauc_max ∧
    convertToTauc (convertFromTauc 1000) = 1000 :=
  ⟨by norm_num [tauc_min], by norm_num [tauc_max],
   C2_transform_round_trip 1000 (by norm_num [tauc_min]) (by norm_num [tauc_max])⟩

/-- Claim C3: every terminal failure of the solve (line-search failure,
divergence, unrecoverable evaluator failure, cancellation) makes
`solveInverse` return `success = false` with a stored `ConvergenceReason`
whose name `inverseConvergedReason` retrieves as a nonempty string; the
model is a total function, so no uncaught exception can propagate. -/
theorem C3_terminal_failures_named (events : ℕ → StepEvent) (max_iterations : ℕ)
    (h : (solveInverse events max_iterations).reason ≠ ConvergenceReason.success) :
    (solveInverse events max_iterations).success = false ∧
    inverseConvergedReason (solveInverse events max_iterations) =
      reasonString (solveInverse events max_iterations).reason ∧
    inverseConvergedReason (solveInverse events max_iterations) ≠ "" ∧
    (0 < max_iterations → events 0 = StepEvent.lineSearchFail →
      (solveInverse events max_iterations).reason = ConvergenceReason.lineSearchFailure) ∧
    (0 < max_iterations → events 0 = StepEvent.evaluatorDiverged →
      (solveInverse events max_iterations).reason = ConvergenceReason.divergedResidual) ∧
    (0 < max_iterations → events 0 = StepEvent.evaluatorFail →
      (solveInverse events max_iterations).reason = ConvergenceReason.forwardSolveFailure) ∧
    (0 < max_iterations → events 0 = StepEvent.cancelled →
      (solveInverse events max_iterations).reason = ConvergenceReason.userCancelled) := by
  refine ⟨decide_eq_false h, rfl, ?_, ?_, ?_, ?_, ?_⟩
  · rcases hr : controllerRun events max_iterations <;>
      simp [inverseConvergedReason, solveInverse, reasonString, hr]
  all_goals
    intro hpos hev
    rcases max_iterations with _ | m
    · omega
    · simp [solveInverse, controllerRun, hev]

/-- Witness for C3: a run whose first iteration fails its line search. -/
theorem C3_witness :
    (solveInverse (fun _ => StepEvent.lineSearchFail) 5).reason ≠
      ConvergenceReason.success ∧
    ((solveInverse (fun _ => StepEvent.lineSearchFail) 5).success = false ∧
     inverseConvergedReason (solveInverse (fun _ => StepEvent.lineSearchFail) 5) =
       reasonString (solveInverse (fun _ => StepEvent.lineSearchFail) 5).reason ∧
     inverseConvergedReason (solveInverse (fun _ => StepEvent.lineSearchFail) 5) ≠ "" ∧
     (0 < 5 → (fun _ : ℕ => StepEvent.lineSearchFail) 0 = StepEvent.lineSearchFail →
       (solveInverse (fun _ => StepEvent.lineSearchFail) 5).reason =
         ConvergenceReason.lineSearchFailure) ∧
     (0 < 5 → (fun _ : ℕ => StepEvent.lineSearchFail) 0 = StepEvent.evaluatorDiverged →
       (solveInverse (fun _ => StepEvent.lineSearchFail) 5).reason =
         ConvergenceReason.divergedResidual) ∧
     (0 < 5 → (fun _ : ℕ => StepEvent.lineSearchFail) 0 = StepEvent.evaluatorFail →
       (solveInverse (fun _ => StepEvent.lineSearchFail) 5).reason =
         ConvergenceReason.forwardSolveFailure) ∧
     (0 < 5 → (fun _ : ℕ => StepEvent.lineSearchFail) 0 = StepEvent.cancelled →
       (solveInverse (fun _ => StepEvent.lineSearchFail) 5).reason =
         ConvergenceReason.userCancelled)) :=
  ⟨by decide, C3_terminal_failures_named (fun _ => StepEvent.lineSearchFail) 5 (by decide)⟩

/-- Claim C4: on an ascent direction (no trial step decreases the
objective), the line-search engine stops after exactly its configured
maximum number of trial evaluations, signals `LineSearchFailure`, and the
failure is reported to the controller as
`ConvergenceReason = lineSearchFailure`; the search cannot loop
indefinitely (its trial count never exceeds the configured maximum). -/
theorem C4_ascent_direction_line_search (phi : ℚ → ℚ) (trialSteps : ℕ → ℚ)
    (max_trials : ℕ) (hAscent : ∀ alpha, phi 0 ≤ phi alpha) :
    lineSearch phi trialSteps max_trials = LSResult.lineSearchFailure max_trials ∧
    (lineSearch phi trialSteps max_trials).trialCount ≤ max_trials ∧
    reportLineSearch (lineSearch phi trialSteps max_trials) =
      some ConvergenceReason.lineSearchFailure := by
  have h : lineSearch phi trialSteps max_trials = LSResult.lineSearchFailure max_trials := by
    have h0 := lineSearchAux_ascent phi trialSteps hAscent max_trials 0
    rwa [Nat.zero_add] at h0
  refine ⟨h, ?_, ?_⟩
  · rw [h]; exact le_refl _
  · rw [h]; rfl

/-- Witness for C4: a constant objective admits no decreasing step. -/
theorem C4_witness :
    (∀ alpha : ℚ, (fun _ : ℚ => (0 : ℚ)) 0 ≤ (fun _ : ℚ => (0 : ℚ)) alpha) ∧
    (lineSearch (fun _ => 0) (fun _ => 1) 3 = LSResult.lineSearchFailure 3 ∧
     (lineSearch (fun _ => 0) (fun _ => 1) 3).trialCount ≤ 3 ∧
     reportLineSearch (lineSearch (fun _ => 0) (fun _ => 1) 3) =
       some ConvergenceReason.lineSearchFailure) :=
  ⟨fun _ => le_refl 0,
   C4_ascent_direction_line_search (fun _ => 0) (fun _ => 1) 3 (fun _ => le_refl 0)⟩

/-- Claim C5: requesting `-inv_test_adjoint` together with a method whose
name starts with `tikhonov` makes the driver report the incompatibility
and exit with status 1; no forward PDE solve (adjoint test, SIA surface
computation, or inverse solve) occurs anywhere in such a run. -/
theorem C5_adjoint_test_tikhonov_guard (o : DriverOpts) (f : DriverFiles)
    (dip rip : ℚ) (hta : o.test_adjoint = true)
    (htik : strStartsWith o.inv_method "tikhonov" = true) :
    (∀ a ∈ mainTrace o f dip rip, isForwardSolveAction a = false) ∧
    ((o.use_tauc_prior = true ∨ f.inputHasTauc = true) →
     (o.do_restart = false ∨ f.outputHasZetaInv = true) →
      List.IsSuffix [Action.printAdjointIncompatible, Action.exitCode 1]
        (mainTrace o f dip rip)) := by
  constructor
  · intro a ha
    unfold mainTrace at ha
    rw [adjointTrace_tikhonov o dip rip _ hta htik] at ha
    rcases List.mem_cons.mp ha with rfl | ha
    · rfl
    rcases mem_taucPriorTrace ha with ha | h
    · rcases mem_taucTrueTrace ha with ha | rfl
      · rcases mem_zetaInitTrace ha with ha | h
        · simp only [List.mem_cons, List.not_mem_nil, or_false] at ha
          rcases ha with rfl | rfl <;> rfl
        · simp only [List.mem_cons, List.not_mem_nil, or_false] at h
          rcases h with rfl | rfl | rfl | rfl <;> rfl
      · rfl
    · simp only [List.mem_cons, List.not_mem_nil, or_false] at h
      rcases h with rfl | rfl | rfl | rfl <;> rfl
  · intro h1 h2
    unfold mainTrace
    rw [adjointTrace_tikhonov o dip rip _ hta htik]
    have s1 := zetaInitTrace_suffix o f
      [Action.printAdjointIncompatible, Action.exitCode 1] h2
    exact ((s1.trans (taucTrueTrace_suffix f _)).trans
      (taucPriorTrace_suffix o f _ h1)).trans (List.suffix_cons _ _)

/-- Witness for C5: the adjoint test requested with `tikhonov_lmvm`. -/
theorem C5_witness :
    strStartsWith "tikhonov_lmvm" "tikhonov" = true ∧
    List.IsSuffix [Action.printAdjointIncompatible, Action.exitCode 1]
      (mainTrace ⟨false, false, true, "tikhonov_lmvm", false, false, false, false⟩
        ⟨true, false, false, false, false⟩ 1 2) :=
  ⟨by decide,
   (C5_adjoint_test_tikhonov_guard
      ⟨false, false, true, "tikhonov_lmvm", false, false, false, false⟩
      ⟨true, false, false, false, false⟩ 1 2 rfl (by decide)).2
     (Or.inr rfl) (Or.inl rfl)⟩

/-- Claim C7: after coefficient initialization the `zeta_fixed_mask`
equals 0 exactly at grounded-ice cells and 1 at every other cell; the
mask is always among the initialized variables, and it is handed to the
solver as the fixed-locations mask exactly when `-use_zeta_fixed_mask`
is set. -/
theorem C7_zeta_fixed_mask_grounded (grounded_ice : Cell → Bool) (c : Cell)
    (is_regional ssa_dirichlet_bc : Bool) (vars : List String)
    (hinit : initSSACoefficientsVars is_regional ssa_dirichlet_bc true = Except.ok vars) :
    (initZetaFixedMask grounded_ice c = 0 ↔ grounded_ice c = true) ∧
    (initZetaFixedMask grounded_ice c = 1 ↔ grounded_ice c = false) ∧
    "zeta_fixed_mask" ∈ vars ∧
    (∀ using_mask : Bool,
      setupFixedLocations true using_mask (initZetaFixedMask grounded_ice) =
        if using_mask then some (initZetaFixedMask grounded_ice) else none) := by
  refine ⟨?_, ?_, ?_, ?_⟩
  · cases h : grounded_ice c <;> simp [initZetaFixedMask, h]
  · cases h : grounded_ice c <;> simp [initZetaFixedMask, h]
  · simp only [initSSACoefficientsVars, if_pos, Except.ok.injEq] at hinit
    rw [← hinit]
    simp
  · intro u
    cases u <;> simp [setupFixedLocations]

/-- Witness for C7 on a two-cell configuration with one grounded cell. -/
theorem C7_witness :
    initSSACoefficientsVars false false true =
      Except.ok ["vel_misfit_weight", "misfit_element_mask", "zeta_fixed_mask"] ∧
    (initZetaFixedMask (fun c => decide (c.1 = 0)) (0, 0) = 0 ↔
      (fun c : Cell => decide (c.1 = 0)) (0, 0) = true) :=
  ⟨rfl,
   (C7_zeta_fixed_mask_grounded (fun c => decide (c.1 = 0)) (0, 0) false false
      ["vel_misfit_weight", "misfit_element_mask", "zeta_fixed_mask"] rfl).1⟩

/-- Claim C8: in the adjoint-test branch with a compatible method, the
driver calls `testTStar`, reports the two inner products it returns, and
exits with status 0 — for every pair of inner-product values, i.e. with
no pass/fail tolerance enforced — and the inverse solve never runs. -/
theorem C8_adjoint_test_reports_and_exits (o : DriverOpts) (f : DriverFiles)
    (dip rip : ℚ) (hta : o.test_adjoint = true)
    (hntik : strStartsWith o.inv_method "tikhonov" = false)
    (h1 : o.use_tauc_prior = true ∨ f.inputHasTauc = true)
    (h2 : o.do_restart = false ∨ f.outputHasZetaInv = true) :
    List.IsSuffix
      [Action.callTestTStar dip rip, Action.reportIPs dip rip, Action.exitCode 0]
      (mainTrace o f dip rip) ∧
    Action.callSolveInverse ∉ mainTrace o f dip rip := by
  constructor
  · unfold mainTrace
    rw [adjointTrace_run o dip rip _ hta hntik]
    have s0 : List.IsSuffix
        [Action.callTestTStar dip rip, Action.reportIPs dip rip, Action.exitCode 0]
        ((if o.using_zeta_fixed_mask then [Action.zeroDOnFixedMask] else []) ++
         [Action.callTestTStar dip rip, Action.reportIPs dip rip, Action.exitCode 0]) :=
      List.suffix_append _ _
    exact (((s0.trans (zetaInitTrace_suffix o f _ h2)).trans
      (taucTrueTrace_suffix f _)).trans
      (taucPriorTrace_suffix o f _ h1)).trans (List.suffix_cons _ _)
  · intro ha
    unfold mainTrace at ha
    rw [adjointTrace_run o dip rip _ hta hntik] at ha
    rcases List.mem_cons.mp ha with h | ha
    · simp at h
    rcases mem_taucPriorTrace ha with ha | h
    · rcases mem_taucTrueTrace ha with ha | h
      · rcases mem_zetaInitTrace ha with ha | h
        · rcases List.mem_append.mp ha with h | h
          · split at h <;> simp at h
          · simp at h
        · simp at h
      · simp at h
    · simp at h

/-- Witness for C8: method `ign`, arbitrary inner products 3 and 7. -/
theorem C8_witness :
    List.IsSuffix
      [Action.callTestTStar 3 7, Action.reportIPs 3 7, Action.exitCode 0]
      (mainTrace ⟨false, false, true, "ign", true, false, false, false⟩
        ⟨true, false, false, false, false⟩ 3 7) ∧
    Action.callSolveInverse ∉
      mainTrace ⟨false, false, true, "ign", true, false, false, false⟩
        ⟨true, false, false, false, false⟩ 3 7 :=
  C8_adjoint_test_reports_and_exits
    ⟨false, false, true, "ign", true, false, false, false⟩
    ⟨true, false, false, false, false⟩ 3 7 rfl (by decide)
    (Or.inr rfl) (Or.inl rfl)

/-- Claim C9: the driver stores the unconverted command-line RMS-error
value in the configuration and later divides only the local variable by
`secpera`, immediately before `solveInverse` (the two trace actions are
adjacent at the end of the run); afterwards the configured value and the
local value differ by exactly a factor of `secpera`. -/
theorem C9_rms_error_unit_swap (r : ℚ) (o : DriverOpts) (f : DriverFiles)
    (dip rip : ℚ) (hta : o.test_adjoint = false)
    (h1 : o.use_tauc_prior = true ∨ f.inputHasTauc = true)
    (h2 : o.do_restart = false ∨ f.outputHasZetaInv = true)
    (h3 : f.invDataHasUSSAObserved = true ∨ f.invDataHasUSurfaceObserved = true) :
    (rmsBeforeSolve (rmsAfterConfigSet r)).configVal = r ∧
    (rmsBeforeSolve (rmsAfterConfigSet r)).localVal = r / secpera ∧
    (rmsBeforeSolve (rmsAfterConfigSet r)).configVal =
      secpera * (rmsBeforeSolve (rmsAfterConfigSet r)).localVal ∧
    List.IsSuffix [Action.divideRmsBySecpera, Action.callSolveInverse]
      (mainTrace o f dip rip) := by
  refine ⟨rfl, rfl, ?_, ?_⟩
  · show r = secpera * (r / secpera)
    rw [mul_div_cancel₀]
    norm_num [secpera]
  · unfold mainTrace
    rw [adjointTrace_off o dip rip _ hta]
    have s0 := listenerTrace_suffix o
      [Action.divideRmsBySecpera, Action.callSolveInverse]
    have s1 := s0.trans (List.suffix_cons Action.writeZeta _)
    have s2 := s1.trans (obsTrace_suffix f _ h3)
    exact (((s2.trans (zetaInitTrace_suffix o f _ h2)).trans
      (taucTrueTrace_suffix f _)).trans
      (taucPriorTrace_suffix o f _ h1)).trans (List.suffix_cons _ _)

/-- Witness for C9 at RMS target 100 and a concrete run configuration. -/
theorem C9_witness :
    (rmsBeforeSolve (rmsAfterConfigSet 100)).configVal = 100 ∧
    (rmsBeforeSolve (rmsAfterConfigSet 100)).localVal = 100 / secpera ∧
    (rmsBeforeSolve (rmsAfterConfigSet 100)).configVal =
      secpera * (rmsBeforeSolve (rmsAfterConfigSet 100)).localVal ∧
    List.IsSuffix [Action.divideRmsBySecpera, Action.callSolveInverse]
      (mainTrace ⟨false, false, false, "ign", false, false, false, false⟩
        ⟨true, false, false, true, false⟩ 1 2) :=
  C9_rms_error_unit_swap 100
    ⟨false, false, false, "ign", false, false, false, false⟩
    ⟨true, false, false, true, false⟩ 1 2 rfl
    (Or.inr rfl) (Or.inl rfl) (Or.inl rfl)

/-- Claim C10: observed SSA velocities are read from `u_ssa_observed`
when the inverse data file has it; otherwise they are derived as the
observed surface velocities minus the SIA-computed surface velocities;
when neither variable is present the driver reports it and exits with
status 1 before any solve. -/
theorem C10_observed_velocity_derivation (f : DriverFiles) (o : DriverOpts)
    (dip rip : ℚ) (u_ssa u_surf u_sia : VelField)
    (hta : o.test_adjoint = false)
    (h1 : o.use_tauc_prior = true ∨ f.inputHasTauc = true)
    (h2 : o.do_restart = false ∨ f.outputHasZetaInv = true) :
    (∀ b, deriveVelSSAObserved true b u_ssa u_surf u_sia = Except.ok u_ssa) ∧
    (deriveVelSSAObserved false true u_ssa u_surf u_sia =
      Except.ok (fun c => ((u_surf c).1 - (u_sia c).1, (u_surf c).2 - (u_sia c).2))) ∧
    (f.invDataHasUSSAObserved = true →
      Action.regridVelSSAObserved ∈ mainTrace o f dip rip) ∧
    (f.invDataHasUSSAObserved = false → f.invDataHasUSurfaceObserved = true →
      Action.computeSIASurfaceVelocities ∈ mainTrace o f dip rip ∧
      Action.subtractSIAFromSurface ∈ mainTrace o f dip rip) ∧
    (∃ msg, deriveVelSSAObserved false false u_ssa u_surf u_sia = Except.error msg) ∧
    (f.invDataHasUSSAObserved = false → f.invDataHasUSurfaceObserved = false →
      List.IsSuffix [Action.printMissingObserved, Action.exitCode 1]
        (mainTrace o f dip rip) ∧
      Action.callSolveInverse ∉ mainTrace o f dip rip) := by
  have hsuffix : List.IsSuffix
      (obsTrace f (Action.writeZeta :: listenerTrace o
        [Action.divideRmsBySecpera, Action.callSolveInverse]))
      (mainTrace o f dip rip) := by
    unfold mainTrace
    rw [adjointTrace_off o dip rip _ hta]
    exact ((List.suffix_rfl.trans (zetaInitTrace_suffix o f _ h2)).trans
      (taucTrueTrace_suffix f _)).trans
      ((taucPriorTrace_suffix o f _ h1).trans (List.suffix_cons _ _))
  refine ⟨?_, ?_, ?_, ?_, ?_, ?_⟩
  · intro b; simp [deriveVelSSAObserved]
  · have hif : deriveVelSSAObserved false true u_ssa u_surf u_sia =
        Except.ok (fun c =>
          ((u_surf c).1 + (-1) * (u_sia c).1, (u_surf c).2 + (-1) * (u_sia c).2)) := rfl
    rw [hif]
    congr 1
    funext c
    rw [neg_one_mul, neg_one_mul, ← sub_eq_add_neg, ← sub_eq_add_neg]
  · intro hd
    have := obsTrace_direct f (Action.writeZeta :: listenerTrace o
      [Action.divideRmsBySecpera, Action.callSolveInverse]) hd
    apply hsuffix.subset
    rw [this]
    exact List.mem_cons_self _ _
  · intro hd hs
    have := obsTrace_surface f (Action.writeZeta :: listenerTrace o
      [Action.divideRmsBySecpera, Action.callSolveInverse]) hd hs
    constructor
    · apply hsuffix.subset
      rw [this]
      exact List.mem_cons_self _ _
    · apply hsuffix.subset
      rw [this]
      exact List.mem_cons_of_mem _ (List.mem_cons_self _ _)
  · exact ⟨"Neither u/v_ssa_observed nor u/v_surface_observed is available. At least one must be specified.", rfl⟩
  · intro hd hs
    have heq := obsTrace_missing f (Action.writeZeta :: listenerTrace o
      [Action.divideRmsBySecpera, Action.callSolveInverse]) hd hs
    constructor
    · have h0 : List.IsSuffix [Action.printMissingObserved, Action.exitCode 1]
          (obsTrace f (Action.writeZeta :: listenerTrace o
            [Action.divideRmsBySecpera, Action.callSolveInverse])) := by
        rw [heq]
      exact h0.trans hsuffix
    · intro ha
      unfold mainTrace at ha
      rw [adjointTrace_off o dip rip _ hta, heq] at ha
      rcases List.mem_cons.mp ha with h | ha
      · simp at h
      rcases mem_taucPriorTrace ha with ha | h
      · rcases mem_taucTrueTrace ha with ha | h
        · rcases mem_zetaInitTrace ha with ha | h
          · simp at ha
          · simp at h
        · simp at h
      · simp at h

/-- Witness for C10 on concrete velocity fields, with only
`u_surface_observed` available in the inverse data file. -/
theorem C10_witness :
    (deriveVelSSAObserved false true (fun _ => (0, 0)) (fun _ => (5, 4))
        (fun _ => (2, 1)) =
      Except.ok (fun c : Cell =>
        (((fun _ : Cell => ((5 : ℚ), (4 : ℚ))) c).1 -
            ((fun _ : Cell => ((2 : ℚ), (1 : ℚ))) c).1,
          ((fun _ : Cell => ((5 : ℚ), (4 : ℚ))) c).2 -
            ((fun _ : Cell => ((2 : ℚ), (1 : ℚ))) c).2))) ∧
    (Action.computeSIASurfaceVelocities ∈
      mainTrace ⟨false, false, false, "ign", false, false, false, false⟩
        ⟨true, false, false, false, true⟩ 1 2 ∧
     Action.subtractSIAFromSurface ∈
      mainTrace ⟨false, false, false, "ign", false, false, false, false⟩
        ⟨true, false, false, false, true⟩ 1 2) :=
  ⟨(C10_observed_velocity_derivation ⟨true, false, false, false, true⟩
      ⟨false, false, false, "ign", false, false, false, false⟩ 1 2
      (fun _ => (0, 0)) (fun _ => (5, 4)) (fun _ => (2, 1)) rfl
      (Or.inr rfl) (Or.inl rfl)).2.1,
   (C10_observed_velocity_derivation ⟨true, false, false, false, true⟩
      ⟨false, false, false, "ign", false, false, false, false⟩ 1 2
      (fun _ => (0, 0)) (fun _ => (5, 4)) (fun _ => (2, 1)) rfl
      (Or.inr rfl) (Or.inl rfl)).2.2.2.1 rfl rfl⟩

/-- Claim C6: the latest parameter field is persisted under the
checkpoint name `zeta_inv` by the per-update `ZetaSaver` listener; under
`-inv_restart` the initial zeta is regridded from that variable of the
output file instead of being converted from `tauc_prior`; and when the
output file lacks `zeta_inv` the driver reports the missing variable and
exits before solving. -/
theorem C6_restart_checkpoint (o : DriverOpts) (f : DriverFiles) (dip rip : ℚ)
    (h1 : o.use_tauc_prior = true ∨ f.inputHasTauc = true) :
    zetaSaverVariable = "zeta_inv" ∧
    (o.do_restart = true → f.outputHasZetaInv = true →
      Action.regridZetaFromOutput "zeta_inv" ∈ mainTrace o f dip rip ∧
      Action.convertFromTaucPrior ∉ mainTrace o f dip rip) ∧
    (o.do_restart = false →
      Action.convertFromTaucPrior ∈ mainTrace o f dip rip ∧
      Action.regridZetaFromOutput "zeta_inv" ∉ mainTrace o f dip rip) ∧
    (o.do_restart = true → f.outputHasZetaInv = false →
      List.IsSuffix [Action.printMissingZetaInv, Action.exitCode 1]
        (mainTrace o f dip rip) ∧
      Action.callSolveInverse ∉ mainTrace o f dip rip) ∧
    (o.test_adjoint = false →
     (o.do_restart = false ∨ f.outputHasZetaInv = true) →
     (f.invDataHasUSSAObserved = true ∨ f.invDataHasUSurfaceObserved = true) →
      Action.addXUpdateListener "zeta_inv" ∈ mainTrace o f dip rip) := by
  have zetaSeqSuffix : ∀ rest : List Action,
      List.IsSuffix (zetaInitTrace o f rest)
        (Action.setup :: taucPriorTrace o f (taucTrueTrace f (zetaInitTrace o f rest))) :=
    fun rest =>
      ((List.suffix_rfl.trans (taucTrueTrace_suffix f _)).trans
        (taucPriorTrace_suffix o f _ h1)).trans (List.suffix_cons _ _)
  refine ⟨rfl, ?_, ?_, ?_, ?_⟩
  · intro hr hz
    constructor
    · apply (zetaSeqSuffix _).subset
      rw [zetaInitTrace_restart o f _ hr hz]
      exact List.mem_cons_self _ _
    · intro ha
      unfold mainTrace at ha
      rw [zetaInitTrace_restart o f _ hr hz] at ha
      rcases List.mem_cons.mp ha with h | ha
      · simp at h
      rcases mem_taucPriorTrace ha with ha | h
      · rcases mem_taucTrueTrace ha with ha | h
        · rcases List.mem_cons.mp ha with h | ha
          · simp at h
          rcases mem_adjointTrace ha with ha | h
          · rcases mem_obsTrace ha with ha | h
            · rcases List.mem_cons.mp ha with h | ha
              · simp at h
              rcases mem_listenerTrace ha with ha | h | h
              · simp at ha
              · obtain ⟨s, hs⟩ := h; simp at hs
              · simp [zetaSaverVariable, zetaVariableName] at h
            · simp at h
          · simp at h
        · simp at h
      · simp at h
  · intro hr
    constructor
    · apply (zetaSeqSuffix _).subset
      rw [zetaInitTrace_fresh o f _ hr]
      exact List.mem_cons_self _ _
    · intro ha
      unfold mainTrace at ha
      rw [zetaInitTrace_fresh o f _ hr] at ha
      rcases List.mem_cons.mp ha with h | ha
      · simp at h
      rcases mem_taucPriorTrace ha with ha | h
      · rcases mem_taucTrueTrace ha with ha | h
        · rcases List.mem_cons.mp ha with h | ha
          · simp at h
          rcases mem_adjointTrace ha with ha | h
          · rcases mem_obsTrace ha with ha | h
            · rcases List.mem_cons.mp ha with h | ha
              · simp at h
              rcases mem_listenerTrace ha with ha | h | h
              · simp at ha
              · obtain ⟨s, hs⟩ := h; simp at hs
              · simp [zetaSaverVariable, zetaVariableName] at h
            · simp at h
          · simp at h
        · simp at h
      · simp at h
  · intro hr hz
    constructor
    · have h0 : List.IsSuffix [Action.printMissingZetaInv, Action.exitCode 1]
          (zetaInitTrace o f (adjointTrace o dip rip (obsTrace f
            (Action.writeZeta :: listenerTrace o
              [Action.divideRmsBySecpera, Action.callSolveInverse])))) := by
        rw [zetaInitTrace_restart_missing o f _ hr hz]
      exact h0.trans (zetaSeqSuffix _)
    · intro ha
      unfold mainTrace at ha
      rw [zetaInitTrace_restart_missing o f _ hr hz] at ha
      rcases List.mem_cons.mp ha with h | ha
      · simp at h
      rcases mem_taucPriorTrace ha with ha | h
      · rcases mem_taucTrueTrace ha with ha | h
        · simp at ha
        · simp at h
      · simp at h
  · intro hta hz h3
    apply (zetaSeqSuffix _).subset
    have hz' : List.IsSuffix
        (Action.writeZeta :: listenerTrace o
          [Action.divideRmsBySecpera, Action.callSolveInverse])
        (zetaInitTrace o f (adjointTrace o dip rip (obsTrace f
          (Action.writeZeta :: listenerTrace o
            [Action.divideRmsBySecpera, Action.callSolveInverse])))) := by
      rw [adjointTrace_off o dip rip _ hta]
      exact (obsTrace_suffix f _ h3).trans (zetaInitTrace_suffix o f _ hz)
    apply hz'.subset
    exact List.mem_cons_of_mem _ (zetaSaver_mem_listenerTrace o _)

/-- Witness for C6: a restart run whose output file holds `zeta_inv`. -/
theorem C6_witness :
    Action.regridZetaFromOutput "zeta_inv" ∈
      mainTrace ⟨false, true, false, "ign", false, false, false, false⟩
        ⟨true, false, true, true, false⟩ 1 2 ∧
    Action.convertFromTaucPrior ∉
      mainTrace ⟨false, true, false, "ign", false, false, false, false⟩
        ⟨true, false, true, true, false⟩ 1 2 :=
  (C6_restart_checkpoint ⟨false, true, false, "ign", false, false, false, false⟩
    ⟨true, false, true, true, false⟩ 1 2 (Or.inr rfl)).2.1 rfl rfl

end Vel2Tauc
